import Mathlib

/-!
A shallow embedding of the stencil render-and-watch engine of the `cx` CLI
(`stencils.go`: `runRenderStencil`, `renderStencil`, `getRenderFilepath`,
and the fsnotify watch loop), together with theorems settling the claims
about it.

Conventions of the embedding:
* File bytes are `List Nat`.
* Side effects are recorded as an ordered trace of `EngineAction`s; an
  `EngineAction.fatal` entry corresponds to `printFatal`, which reports and ends
  the process (so nothing in the program runs after it).
* External results (file existence, `ioutil.ReadFile`, the prior
  fingerprint extracted from an existing output, and the Rendering
  Service response) are inputs to the model, bundled in `FileCtx`.
* The content digest `generateChecksum` is an arbitrary function
  parameter `fp : List Nat → String`; the theorems hold for every digest.
-/

/-- One stencil entry of a formation (`cloud66.Stencil`): the fields
`Filename` and `Uid` used by `renderStencil`. -/
structure Stencil where
  filename : String
  uid : String
deriving DecidableEq, Repr

/-- A formation (`cloud66.Formation`): the fields `Name`, `Uid`,
`Stencils` used by `renderStencil`. -/
structure Formation where
  name : String
  uid : String
  stencils : List Stencil
deriving DecidableEq, Repr

/-- Kind of a diagnostic returned by the Rendering Service.
Modelled from the spec: the service returns
`diagnostics: [{kind, text, templateName}]` with `kind = error | warning`. -/
inductive DiagKind where
  | err
  | warn
deriving DecidableEq, Repr

/-- A diagnostic returned by the Rendering Service: `Text` and `Stencil`
are the two fields printed by `renderStencil`. -/
structure Diagnostic where
  kind : DiagKind
  text : String
  stencil : String
deriving DecidableEq, Repr

/-- One rendered content returned by the Rendering Service
(an element of `renders.Stencils`, with its `Content` field). -/
structure RenderItem where
  content : String
deriving DecidableEq, Repr

/-- The Rendering Service response (`cloud66.Renders`): a list of rendered
contents and a list of classified diagnostics.
Modelled from the spec for the parts outside src:
`render(...) → {outputs: [{content}], diagnostics: [{kind, text, templateName}]}`. -/
structure Renders where
  stencils : List RenderItem
  diagnostics : List Diagnostic
deriving DecidableEq, Repr

/-- Modelled from the spec: `renders.Errors()` of the cloud66 library —
the error-kind diagnostics of the response. -/
def Renders.errorsOf (r : Renders) : List Diagnostic :=
  r.diagnostics.filter (fun d => d.kind = DiagKind.err)

/-- Modelled from the spec: `renders.Warnings()` of the cloud66 library —
the warning-kind diagnostics of the response. -/
def Renders.warningsOf (r : Renders) : List Diagnostic :=
  r.diagnostics.filter (fun d => d.kind = DiagKind.warn)

/-- The last slash-separated component of a character list, accumulating
the current component in reverse. -/
def lastComponent (acc : List Char) : List Char → List Char
  | [] => acc.reverse
  | c :: cs => if c = '/' then lastComponent [] cs else lastComponent (c :: acc) cs

/-- `filepath.Base`: the last slash-separated component of a path.
(Faithful for the slash-free and `dir/name` paths this program builds;
Go additionally cleans trailing slashes, which never occur here.) -/
def baseName (p : String) : String :=
  String.mk (lastComponent [] p.data)

/-- `strings.HasPrefix(s, "_")` for the one-character prefix used by
`renderStencil`. -/
def hasUnderscorePrefix (s : String) : Bool :=
  match s.data with
  | [] => false
  | c :: _ => c = '_'

/-- `filepath.Join` for the already-clean two-component paths this
program builds. -/
def joinPath (a b : String) : String :=
  if a = "" then b else a ++ "/" ++ b

/-- `strings.ReplaceAll(s, "@", "-")`: with a single-character pattern and
replacement, replacing every occurrence is a character map. -/
def replaceAtByDash (s : String) : String :=
  String.mk (s.data.map (fun c => if c = '@' then '-' else c))

/-- The output filename computed by `getRenderFilepath` before joining:
the stencil's base name with `@` replaced by `-`. -/
def renderFilename (stencilFilename : String) : String :=
  replaceAtByDash (baseName stencilFilename)

/-- `getRenderFilepath` (stencils.go lines 409-415): full filename for the
rendered stencil derived from the stencil template name. -/
def getRenderFilepath (outdir : String) (stencilFilename : String) : String :=
  joinPath outdir (renderFilename stencilFilename)

/-- The names kept by the enumeration loop of `runRenderStencil`
(lines 243-249): every directory entry except the `.pause` sentinel. -/
def enumeratedNames (listing : List String) : List String :=
  listing.filter (fun n => n ≠ ".pause")

/-- `filesToRender` for a directory target (lines 238-249): the kept
entry names joined onto the folder. -/
def filesToRenderOf (stencilFolder : String) (listing : List String) : List String :=
  (enumeratedNames listing).map (fun n => joinPath stencilFolder n)

example : renderFilename "app@web.yml" = "app-web.yml" := by decide
example : enumeratedNames ["_inc.yml", ".pause", "app.yml"] = ["_inc.yml", "app.yml"] := by decide
example : baseName "d/_inc.yml" = "_inc.yml" := by decide

/-- An observable side effect of the engine, in program order.
`fatal` corresponds to `printFatal`, which reports to the error stream and
ends the process: no action of this run follows it. -/
inductive EngineAction where
  /-- `printFatal msg`: report and end the process. -/
  | fatal (msg : String)
  /-- "No stencil named ... found" report (line 462), then per-file return. -/
  | reportNoStencil (name : String)
  /-- "File ... is empty" report (line 478), then per-file return. -/
  | reportEmpty (path : String)
  /-- "Failed to read the checksum" warning (line 489); carries on. -/
  | warnChecksumRead (msg : String)
  /-- "No change found in ..." (line 493), then per-file return. -/
  | infoNoChange (path : String)
  /-- "[formation] Rendering source to output" (line 498). -/
  | infoRendering (formationName source output : String)
  /-- `client.RenderStencil(stack.Uid, snapshotUID, formation.Uid, stencilUID, body)`. -/
  | renderCall (stackUid snapshotUID formationUid stencilUid : String) (body : List Nat)
  /-- Itemized error diagnostics report (lines 507-510). -/
  | reportErrors (ds : List Diagnostic)
  /-- Itemized warning diagnostics report (lines 519-522). -/
  | reportWarnings (ds : List Diagnostic)
  /-- `ioutil.WriteFile(output, content, 0644)` that succeeded (line 537). -/
  | writeFile (path content : String)
  /-- `fmt.Printf("%s---\n", content)` concatenation to stdout (line 543). -/
  | printContent (content : String)
  /-- "New file ... found. Reloading stencil list" (line 355). -/
  | infoNewFile (name : String)
  /-- `time.Sleep(n * time.Second)` debounce (line 358). -/
  | sleepSeconds (n : Nat)
  /-- `loadFormation(stack, formation.Name)` re-resolution (line 359). -/
  | reloadFormation
  /-- An invocation of `renderStencil` from the watch loop (lines 342, 361). -/
  | renderInvoke (file output : String)
  /-- `watcher.Add(event.Name)` registration (line 362). -/
  | watchAdd (path : String)
  /-- "Resuming watch..." (line 329). -/
  | infoResume
  /-- "Watch paused" (line 346). -/
  | infoPaused
deriving DecidableEq, Repr

/-- Whether an action is a `printFatal` (process-ending) report. -/
def EngineAction.isFatal : EngineAction → Bool
  | .fatal _ => true
  | _ => false

/-- Whether an action is a call to the Rendering Service's render operation. -/
def EngineAction.isRenderCall : EngineAction → Bool
  | .renderCall _ _ _ _ _ => true
  | _ => false

/-- Whether an action is a successful write of an output file. -/
def EngineAction.isWrite : EngineAction → Bool
  | .writeFile _ _ => true
  | _ => false

/-- Whether an action emits rendered output (to a file or to stdout). -/
def EngineAction.emitsOutput : EngineAction → Bool
  | .writeFile _ _ => true
  | .printContent _ => true
  | _ => false

/-- Whether an action is a watch-loop invocation of `renderStencil`. -/
def EngineAction.isRenderInvoke : EngineAction → Bool
  | .renderInvoke _ _ => true
  | _ => false

/-- The external results consumed by one `renderStencil` call:
`fileExists(stencilFilename)`, the `ioutil.ReadFile` result, the
fingerprint extracted from the existing output, and the Rendering Service
response. `priorFp` is modelled from the spec (`readMagicComment` is not
under src): `Except.ok s` means an existing embedded fingerprint `s` was
found in the output's first-line marker; `Except.error e` covers a
missing or unreadable output or an absent marker, "treated as no existing
fingerprint — not an error, never fatal". -/
structure FileCtx where
  fileExists : Bool
  readResult : Except String (List Nat)
  priorFp : Except String String
  renderResult : Except String Renders
deriving Repr

/-- The scan of `formation.Stencils` (lines 455-460): the last stencil
whose `Filename` matches keeps its `Uid`; otherwise the empty string. -/
def findStencilUid (stencils : List Stencil) (name : String) : String :=
  stencils.foldl (fun acc s => if s.filename = name then s.uid else acc) ""

/-- The Fingerprint Gate decision of `renderStencil` (lines 483-496):
skip (return without rendering) iff `readMagicComment` succeeded and the
extracted fingerprint equals `generateChecksum body`. -/
def gateSkips (fp : List Nat → String) (body : List Nat)
    (priorFp : Except String String) : Bool :=
  match priorFp with
  | .error _ => false
  | .ok readChecksum => fp body == readChecksum

/-- The fingerprint marker line prepended to the rendered content
(line 534): `fmt.Sprintf("# cx.checksum: %s\n%s", checksum, content)`. -/
def stampedContent (checksum : String) (content : String) : String :=
  "# cx.checksum: " ++ checksum ++ "\n" ++ content

/-- The content loop of `renderStencil` (lines 530-545): each returned
content is stamped with the checksum of `body` and written to `output`
(or concatenated to stdout when `output` is empty). `writeErr` gives the
`ioutil.WriteFile` outcome for a path and content; a write error is
`printFatal` (process ends, nothing after). -/
def writeRenderList (fp : List Nat → String) (body : List Nat) (output : String)
    (writeErr : String → String → Option String) : List RenderItem → List EngineAction
  | [] => []
  | v :: rest =>
    let content := stampedContent (fp body) v.content
    if output ≠ "" then
      match writeErr output content with
      | some e => [EngineAction.fatal e]
      | none => EngineAction.writeFile output content ::
          writeRenderList fp body output writeErr rest
    else
      EngineAction.printContent (content ++ "---\n") ::
        writeRenderList fp body output writeErr rest

/-- The warning triage of `renderStencil` (lines 517-527) followed by the
content loop: report warnings when present; stop unless `ignoreWarnings`. -/
def warningsPhase (fp : List Nat → String) (body : List Nat) (output : String)
    (ignoreWarnings : Bool) (writeErr : String → String → Option String)
    (renders : Renders) : List EngineAction :=
  let foundWarnings := renders.warningsOf
  if foundWarnings.length ≠ 0 then
    if ignoreWarnings = false then
      [EngineAction.reportWarnings foundWarnings]
    else
      EngineAction.reportWarnings foundWarnings ::
        writeRenderList fp body output writeErr renders.stencils
  else
    writeRenderList fp body output writeErr renders.stencils

/-- The diagnostics triage of `renderStencil` (lines 505-545): report
errors when present; stop unless `ignoreErrors`; then the warning phase. -/
def processRenders (fp : List Nat → String) (body : List Nat) (output : String)
    (ignoreWarnings ignoreErrors : Bool)
    (writeErr : String → String → Option String) (renders : Renders) : List EngineAction :=
  let foundErrors := renders.errorsOf
  if foundErrors.length ≠ 0 then
    if ignoreErrors = false then
      [EngineAction.reportErrors foundErrors]
    else
      EngineAction.reportErrors foundErrors ::
        warningsPhase fp body output ignoreWarnings writeErr renders
  else
    warningsPhase fp body output ignoreWarnings writeErr renders

/-- The Rendering Service call of `renderStencil` (lines 501-503) and
what follows it: `client.RenderStencil(...)`, `must(err)` (a service
failure is `printFatal`), then the diagnostics triage and content loop. -/
def servicePhase (fp : List Nat → String) (body : List Nat) (output : String)
    (ignoreWarnings ignoreErrors : Bool)
    (writeErr : String → String → Option String)
    (stackUid snapshotUID formationUid stencilUID : String)
    (renderResult : Except String Renders) : List EngineAction :=
  match renderResult with
  | .error e =>
    [EngineAction.renderCall stackUid snapshotUID formationUid stencilUID body,
     EngineAction.fatal e]
  | .ok renders =>
    EngineAction.renderCall stackUid snapshotUID formationUid stencilUID body ::
      processRenders fp body output ignoreWarnings ignoreErrors writeErr renders

/-- `renderStencil` (lines 434-546) as a trace of actions: existence
check, private-template skip, stencil-UID resolution, read, empty-file
skip, Fingerprint Gate, render call, diagnostics triage, content loop. -/
def renderStencil (fp : List Nat → String) (ctx : FileCtx)
    (stencilFilename : String) (formation : Formation) (stackUid : String)
    (output : String) (snapshotUID : String)
    (ignoreWarnings ignoreErrors : Bool)
    (writeErr : String → String → Option String) : List EngineAction :=
  if ctx.fileExists = false then
    [EngineAction.fatal ("Cannot find " ++ stencilFilename)]
  else
    let stencilName := baseName stencilFilename
    if hasUnderscorePrefix stencilName then
      []
    else
      let stencilUID := findStencilUid formation.stencils stencilName
      if stencilUID = "" then
        [EngineAction.reportNoStencil stencilName]
      else
        match ctx.readResult with
        | .error e => [EngineAction.fatal ("Failed to read " ++ stencilFilename ++ ": " ++ e)]
        | .ok body =>
          if body.length = 0 then
            [EngineAction.reportEmpty stencilFilename]
          else
            if output ≠ "" ∧ gateSkips fp body ctx.priorFp then
              [EngineAction.infoNoChange output]
            else
              (if output ≠ "" then
                (match ctx.priorFp with
                 | .error e => [EngineAction.warnChecksumRead e]
                 | .ok _ => []) ++
                [EngineAction.infoRendering formation.name stencilFilename output]
              else []) ++
              servicePhase fp body output ignoreWarnings ignoreErrors writeErr
                stackUid snapshotUID formation.uid stencilUID ctx.renderResult

/-- The per-file loop of `runRenderStencil` in directory mode
(lines 288-296): for each enumerated file, compute the output path with
`getRenderFilepath` and run `renderStencil`; a `printFatal` inside a
file's render ends the process, so nothing of the remaining files runs. -/
def runBatch (fp : List Nat → String) (ctx : String → FileCtx)
    (formation : Formation) (stackUid outdir snapshotUID : String)
    (ignoreWarnings ignoreErrors : Bool)
    (writeErr : String → String → Option String) : List String → List EngineAction
  | [] => []
  | f :: rest =>
    let tr := renderStencil fp (ctx f) f formation stackUid
      (getRenderFilepath outdir (baseName f)) snapshotUID
      ignoreWarnings ignoreErrors writeErr
    if tr.any EngineAction.isFatal then tr
    else tr ++ runBatch fp ctx formation stackUid outdir snapshotUID
      ignoreWarnings ignoreErrors writeErr rest

/-- An fsnotify event: the name and the `Op` bitmask bits checked by the
watch loop (`Remove`, `Write`, `Create`). -/
structure FsEvent where
  name : String
  hasRemove : Bool
  hasWrite : Bool
  hasCreate : Bool
deriving DecidableEq, Repr

/-- One iteration of the watch event loop (lines 321-363) on one event:
the paused flag before the event and the event map to the paused flag
after it and the actions performed. The `Remove`-of-`.pause` check runs
first and clears the flag; a set flag then discards the event; otherwise
the `Write` branch invokes a render and the `Create` branch either sets
the flag (sentinel) or debounces, reloads the formation, renders the new
file and registers it with the watcher. -/
def watchStep (outdir : String) (paused0 : Bool) (ev : FsEvent) :
    Bool × List EngineAction :=
  let sentinelRemoved := ev.hasRemove = true ∧ baseName ev.name = ".pause"
  let p1 := if sentinelRemoved then false else paused0
  let acts1 : List EngineAction := if sentinelRemoved then [.infoResume] else []
  if p1 then
    (p1, acts1)
  else
    let actsWrite : List EngineAction :=
      if ev.hasWrite then
        [.renderInvoke ev.name (getRenderFilepath outdir (baseName ev.name))]
      else []
    if ev.hasCreate then
      if baseName ev.name = ".pause" then
        (true, acts1 ++ actsWrite ++ [.infoPaused])
      else
        (p1, acts1 ++ actsWrite ++
          [.infoNewFile (baseName ev.name),
           .sleepSeconds 10,
           .reloadFormation,
           .renderInvoke ev.name (getRenderFilepath outdir (baseName ev.name)),
           .watchAdd ev.name])
    else
      (p1, acts1 ++ actsWrite)

/-- The watch event loop over a delivered event sequence: fold of
`watchStep`, concatenating the traces in delivery order. -/
def watchRun (outdir : String) : Bool → List FsEvent → List EngineAction
  | _, [] => []
  | p, ev :: evs =>
    let step := watchStep outdir p ev
    step.2 ++ watchRun outdir step.1 evs

/-! ## Theorems -/

/-- Mapping `@` to `-` changes any list that contains `@`. -/
theorem replaceAt_ne_of_mem {l : List Char} (h : '@' ∈ l) :
    l.map (fun c => if c = '@' then '-' else c) ≠ l := by
  induction l with
  | nil => cases h
  | cons c cs ih =>
    intro heq
    rw [List.map_cons] at heq
    injection heq with h1 h2
    by_cases hc : c = '@'
    · subst hc; simp at h1
    · rcases List.mem_cons.mp h with h' | h'
      · exact hc h'.symm
      · exact ih h' h2

/-- C9: for every source filename whose base name contains the reserved
collision character `@`, the destination filename computed by
`getRenderFilepath` (the base name with `@` replaced by `-`) is never
equal to the source filename. -/
theorem claim_C9 (f : String) (h : '@' ∈ (baseName f).data) :
    renderFilename f ≠ baseName f := by
  intro heq
  have h2 : ((baseName f).data.map (fun c => if c = '@' then '-' else c))
      = (baseName f).data := congrArg String.data heq
  exact replaceAt_ne_of_mem h h2

/-- Witness for C9 at the concrete filename `app@web.yml`. -/
theorem claim_C9_witness : renderFilename "app@web.yml" ≠ baseName "app@web.yml" :=
  claim_C9 "app@web.yml" (by decide)

/-- C4 fails as stated: the enumeration loop of `runRenderStencil`
excludes only the `.pause` sentinel, so a directory listing containing
the partial template `_inc.yml` puts it into the set of files to render. -/
theorem claim_C4_counterexample :
    "_inc.yml" ∈ enumeratedNames ["_inc.yml", "app.yml"] ∧
    hasUnderscorePrefix "_inc.yml" = true ∧
    "d/_inc.yml" ∈ filesToRenderOf "d" ["_inc.yml", "app.yml"] ∧
    hasUnderscorePrefix (baseName "d/_inc.yml") = true := by
  decide

/-- C4 amended: directory enumeration excludes only the sentinel marker
file; partial/private templates (base name starting with `_`) remain in
the enumerated batch target, but rendering such an existing file is a
no-op — `renderStencil` returns immediately with an empty trace (no
render call, no write, no report). -/
theorem claim_C4_amended :
    (∀ listing : List String, ".pause" ∉ enumeratedNames listing) ∧
    (∀ (fp : List Nat → String) (ctx : FileCtx) (f : String)
        (formation : Formation) (stackUid output snapshotUID : String)
        (iw ie : Bool) (writeErr : String → String → Option String),
      hasUnderscorePrefix (baseName f) = true → ctx.fileExists = true →
      renderStencil fp ctx f formation stackUid output snapshotUID iw ie writeErr = []) := by
  constructor
  · intro listing hmem
    have := List.of_mem_filter hmem
    simp at this
  · intro fp ctx f formation stackUid output snapshotUID iw ie writeErr hpre hfe
    simp [renderStencil, hfe, hpre]

/-- Witness for the amended C4 at a concrete listing and file. -/
theorem claim_C4_amended_witness :
    ".pause" ∉ enumeratedNames [".pause", "_inc.yml", "app.yml"] ∧
    renderStencil (fun _ => "H") ⟨true, Except.ok [1], Except.error "e", Except.error "e"⟩
      "d/_inc.yml" ⟨"fm", "fu", []⟩ "stk" "out/_inc.yml" "snap" false false
      (fun _ _ => none) = [] :=
  ⟨claim_C4_amended.1 [".pause", "_inc.yml", "app.yml"],
   claim_C4_amended.2 (fun _ => "H") ⟨true, Except.ok [1], Except.error "e", Except.error "e"⟩
     "d/_inc.yml" ⟨"fm", "fu", []⟩ "stk" "out/_inc.yml" "snap" false false
     (fun _ _ => none) (by decide) rfl⟩

/-- C1: the diagnostics triage of `renderStencil` is errors-first,
warnings-second. If errors exist and are not ignored, the trace is just
the error report (no output written, nothing after); otherwise if
warnings exist and are not ignored, the trace is the reports only; only
when each class is empty or ignored does the trace continue into the
content-writing loop. -/
theorem claim_C1 (fp : List Nat → String) (body : List Nat) (output : String)
    (iw ie : Bool) (writeErr : String → String → Option String) (renders : Renders) :
    (renders.errorsOf.length ≠ 0 → ie = false →
      processRenders fp body output iw ie writeErr renders =
        [EngineAction.reportErrors renders.errorsOf]) ∧
    ((renders.errorsOf.length = 0 ∨ ie = true) →
      renders.warningsOf.length ≠ 0 → iw = false →
      processRenders fp body output iw ie writeErr renders =
        (if renders.errorsOf.length ≠ 0 then [EngineAction.reportErrors renders.errorsOf] else []) ++
        [EngineAction.reportWarnings renders.warningsOf]) ∧
    ((renders.errorsOf.length = 0 ∨ ie = true) →
      (renders.warningsOf.length = 0 ∨ iw = true) →
      processRenders fp body output iw ie writeErr renders =
        (if renders.errorsOf.length ≠ 0 then [EngineAction.reportErrors renders.errorsOf] else []) ++
        (if renders.warningsOf.length ≠ 0 then [EngineAction.reportWarnings renders.warningsOf] else []) ++
        writeRenderList fp body output writeErr renders.stencils) := by
  refine ⟨?_, ?_, ?_⟩
  · intro he hie
    simp [processRenders, he, hie]
  · intro her hw hiw
    by_cases he : renders.errorsOf.length ≠ 0
    · have hie : ie = true := by
        rcases her with h0 | h1
        · exact absurd h0 he
        · exact h1
      simp [processRenders, warningsPhase, he, hie, hw, hiw]
    · simp [processRenders, warningsPhase, he, hw, hiw]
  · intro her hwr
    by_cases he : renders.errorsOf.length ≠ 0
    · have hie : ie = true := by
        rcases her with h0 | h1
        · exact absurd h0 he
        · exact h1
      by_cases hw : renders.warningsOf.length ≠ 0
      · have hiw : iw = true := by
          rcases hwr with h0 | h1
          · exact absurd h0 hw
          · exact h1
        simp [processRenders, warningsPhase, he, hie, hw, hiw]
      · simp [processRenders, warningsPhase, he, hie, hw]
    · by_cases hw : renders.warningsOf.length ≠ 0
      · have hiw : iw = true := by
          rcases hwr with h0 | h1
          · exact absurd h0 hw
          · exact h1
        simp [processRenders, warningsPhase, he, hw, hiw]
      · simp [processRenders, warningsPhase, he, hw]

/-- Witness for C1 at a concrete response carrying one error diagnostic. -/
theorem claim_C1_witness :
    processRenders (fun _ => "H") [1] "o" false false (fun _ _ => none)
      ⟨[⟨"C"⟩], [⟨DiagKind.err, "boom", "a.yml"⟩]⟩ =
      [EngineAction.reportErrors [⟨DiagKind.err, "boom", "a.yml"⟩]] :=
  (claim_C1 (fun _ => "H") [1] "o" false false (fun _ _ => none)
      ⟨[⟨"C"⟩], [⟨DiagKind.err, "boom", "a.yml"⟩]⟩).1 (by decide) rfl

/-- C5 fails as stated: a response carrying both an error and a warning
diagnostic, rendered with `ignoreErrors = false`, stops at the error
report — the warning is present in the response but never reported. -/
theorem claim_C5_counterexample :
    (Renders.warningsOf
        ⟨[⟨"C"⟩], [⟨DiagKind.err, "boom", "a.yml"⟩, ⟨DiagKind.warn, "meh", "a.yml"⟩]⟩).length ≠ 0 ∧
    processRenders (fun _ => "H") [1] "o" false false (fun _ _ => none)
      ⟨[⟨"C"⟩], [⟨DiagKind.err, "boom", "a.yml"⟩, ⟨DiagKind.warn, "meh", "a.yml"⟩]⟩ =
      [EngineAction.reportErrors [⟨DiagKind.err, "boom", "a.yml"⟩]] := by
  decide

/-- C5 amended: all warning diagnostics are reported in one report
whenever they are present and the error phase does not stop the render
(no error diagnostics, or `ignoreErrors` set) — regardless of
`ignoreWarnings` and of whether output is then written. When errors are
present and not ignored, the render returns before the warning report. -/
theorem claim_C5_amended (fp : List Nat → String) (body : List Nat) (output : String)
    (iw ie : Bool) (writeErr : String → String → Option String) (renders : Renders)
    (hreach : renders.errorsOf.length = 0 ∨ ie = true)
    (hw : renders.warningsOf.length ≠ 0) :
    EngineAction.reportWarnings renders.warningsOf ∈
      processRenders fp body output iw ie writeErr renders := by
  by_cases he : renders.errorsOf.length ≠ 0
  · have hie : ie = true := by
      rcases hreach with h0 | h1
      · exact absurd h0 he
      · exact h1
    by_cases hiw : iw = false <;>
      simp [processRenders, warningsPhase, he, hie, hw, hiw]
  · by_cases hiw : iw = false <;>
      simp [processRenders, warningsPhase, he, hw, hiw]

/-- Witness for the amended C5: with errors ignored, the warning report
appears in the trace. -/
theorem claim_C5_amended_witness :
    EngineAction.reportWarnings [⟨DiagKind.warn, "meh", "a.yml"⟩] ∈
      processRenders (fun _ => "H") [1] "o" false true (fun _ _ => none)
        ⟨[⟨"C"⟩], [⟨DiagKind.err, "boom", "a.yml"⟩, ⟨DiagKind.warn, "meh", "a.yml"⟩]⟩ :=
  claim_C5_amended (fun _ => "H") [1] "o" false true (fun _ _ => none)
    ⟨[⟨"C"⟩], [⟨DiagKind.err, "boom", "a.yml"⟩, ⟨DiagKind.warn, "meh", "a.yml"⟩]⟩
    (Or.inr rfl) (by decide)

/-- C2: if `renderStencil` runs against an output file whose embedded
fingerprint equals the fingerprint of the (unchanged) input bytes, the
trace contains zero Rendering Service calls and zero writes; and the
Fingerprint Gate skips exactly when an existing fingerprint is found and
equals the fingerprint of the input bytes. -/
theorem claim_C2 (fp : List Nat → String) (ctx : FileCtx) (f : String)
    (formation : Formation) (stackUid output snapshotUID : String)
    (iw ie : Bool) (writeErr : String → String → Option String) (body : List Nat)
    (ho : output ≠ "") (hb : ctx.readResult = Except.ok body)
    (hfp : ctx.priorFp = Except.ok (fp body)) :
    (∀ a ∈ renderStencil fp ctx f formation stackUid output snapshotUID iw ie writeErr,
      a.isRenderCall = false ∧ a.isWrite = false) ∧
    (∀ (b : List Nat) (pf : Except String String),
      gateSkips fp b pf = true ↔ pf = Except.ok (fp b)) := by
  constructor
  · intro a ha
    simp only [renderStencil, hb, hfp] at ha
    repeat' split at ha
    all_goals
      simp_all [EngineAction.isRenderCall, EngineAction.isWrite, gateSkips, ho]
  · intro b pf
    cases pf with
    | error e => simp [gateSkips]
    | ok s =>
      simp only [gateSkips, beq_iff_eq, Except.ok.injEq]
      exact eq_comm

/-- Witness for C2: an unchanged input against a matching embedded
fingerprint produces no render call and no write. -/
theorem claim_C2_witness :
    (∀ a ∈ renderStencil (fun _ => "H")
        ⟨true, Except.ok [1], Except.ok "H", Except.ok ⟨[⟨"C"⟩], []⟩⟩
        "d/a.yml" ⟨"fm", "fu", [⟨"a.yml", "u1"⟩]⟩ "stk" "out/a.yml" "snap"
        false false (fun _ _ => none),
      a.isRenderCall = false ∧ a.isWrite = false) ∧
    (∀ (b : List Nat) (pf : Except String String),
      gateSkips (fun _ => "H") b pf = true ↔ pf = Except.ok "H") :=
  claim_C2 (fun _ => "H")
    ⟨true, Except.ok [1], Except.ok "H", Except.ok ⟨[⟨"C"⟩], []⟩⟩
    "d/a.yml" ⟨"fm", "fu", [⟨"a.yml", "u1"⟩]⟩ "stk" "out/a.yml" "snap"
    false false (fun _ _ => none) [1] (by decide) rfl rfl

/-- C6: while the watch loop is Paused, every event other than removal of
the `.pause` sentinel is discarded (no actions, state stays Paused) — in
particular a file-modified event on a tracked non-sentinel file triggers
no render; removing the sentinel transitions to Active without rendering;
once Active, a modification event is processed normally; and a run of
discarded events leaves an empty trace (no replay). -/
theorem claim_C6 (outdir : String) :
    (∀ ev : FsEvent, ¬(ev.hasRemove = true ∧ baseName ev.name = ".pause") →
      watchStep outdir true ev = (true, [])) ∧
    (∀ n : String, baseName n = ".pause" →
      watchStep outdir true ⟨n, true, false, false⟩ = (false, [EngineAction.infoResume])) ∧
    (∀ n : String, watchStep outdir false ⟨n, false, true, false⟩ =
      (false, [EngineAction.renderInvoke n (getRenderFilepath outdir (baseName n))])) ∧
    (∀ evs : List FsEvent,
      (∀ ev ∈ evs, ¬(ev.hasRemove = true ∧ baseName ev.name = ".pause")) →
      watchRun outdir true evs = []) := by
  have h1 : ∀ ev : FsEvent, ¬(ev.hasRemove = true ∧ baseName ev.name = ".pause") →
      watchStep outdir true ev = (true, []) := by
    intro ev h
    simp [watchStep, h]
  refine ⟨h1, ?_, ?_, ?_⟩
  · intro n h
    simp [watchStep, h]
  · intro n
    simp [watchStep]
  · intro evs h
    induction evs with
    | nil => rfl
    | cons ev evs ih =>
      have hstep := h1 ev (h ev (by simp))
      simp [watchRun, hstep, ih (fun e he => h e (by simp [he]))]

/-- Witness for C6 at concrete events: a modification while Paused is
discarded, sentinel removal resumes, a modification while Active renders,
and a paused run of non-sentinel events leaves no trace. -/
theorem claim_C6_witness :
    watchStep "out" true ⟨"d/app.yml", false, true, false⟩ = (true, []) ∧
    watchStep "out" true ⟨"d/.pause", true, false, false⟩ = (false, [EngineAction.infoResume]) ∧
    watchStep "out" false ⟨"d/app.yml", false, true, false⟩ =
      (false, [EngineAction.renderInvoke "d/app.yml"
        (getRenderFilepath "out" (baseName "d/app.yml"))]) ∧
    watchRun "out" true [⟨"d/app.yml", false, true, false⟩, ⟨"d/new.yml", false, false, true⟩] = [] :=
  ⟨(claim_C6 "out").1 ⟨"d/app.yml", false, true, false⟩ (by decide),
   (claim_C6 "out").2.1 "d/.pause" (by decide),
   (claim_C6 "out").2.2.1 "d/app.yml",
   (claim_C6 "out").2.2.2 [⟨"d/app.yml", false, true, false⟩, ⟨"d/new.yml", false, false, true⟩]
     (by decide)⟩

/-- C7: a file-created event on a non-sentinel file while Active produces
exactly the trace: new-file report, the fixed 10-second debounce sleep,
the formation re-load, exactly one render of the new file, and the watch
registration of the new file — so no render occurs before the debounce
elapses, the formation is re-loaded first, and registration follows. -/
theorem claim_C7 (outdir n : String) (h : baseName n ≠ ".pause") :
    watchStep outdir false ⟨n, false, false, true⟩ =
      (false,
       [EngineAction.infoNewFile (baseName n), EngineAction.sleepSeconds 10,
        EngineAction.reloadFormation,
        EngineAction.renderInvoke n (getRenderFilepath outdir (baseName n)),
        EngineAction.watchAdd n]) ∧
    ((watchStep outdir false ⟨n, false, false, true⟩).2.takeWhile
        (fun a => a ≠ EngineAction.sleepSeconds 10)).countP EngineAction.isRenderInvoke = 0 ∧
    (watchStep outdir false ⟨n, false, false, true⟩).2.countP EngineAction.isRenderInvoke = 1 := by
  have h1 : watchStep outdir false ⟨n, false, false, true⟩ =
      (false,
       [EngineAction.infoNewFile (baseName n), EngineAction.sleepSeconds 10,
        EngineAction.reloadFormation,
        EngineAction.renderInvoke n (getRenderFilepath outdir (baseName n)),
        EngineAction.watchAdd n]) := by
    simp [watchStep, h]
  refine ⟨h1, ?_, ?_⟩
  · rw [h1]
    simp [List.takeWhile_cons, List.countP_cons, EngineAction.isRenderInvoke]
  · rw [h1]
    simp [List.countP_cons, EngineAction.isRenderInvoke]

/-- Witness for C7 at a concrete new file. -/
theorem claim_C7_witness :
    watchStep "out" false ⟨"d/new.yml", false, false, true⟩ =
      (false,
       [EngineAction.infoNewFile (baseName "d/new.yml"), EngineAction.sleepSeconds 10,
        EngineAction.reloadFormation,
        EngineAction.renderInvoke "d/new.yml" (getRenderFilepath "out" (baseName "d/new.yml")),
        EngineAction.watchAdd "d/new.yml"]) :=
  (claim_C7 "out" "d/new.yml" (by decide)).1

/-- Concrete digest used by the C3 scenario. -/
def cexFp : List Nat → String := fun _ => "H"

/-- Concrete two-stencil formation used by the C3 scenario. -/
def cexFormation : Formation := ⟨"fm", "fuid", [⟨"a.yml", "u1"⟩, ⟨"b.yml", "u2"⟩]⟩

/-- Concrete per-file contexts for the C3 scenario: both files exist,
read distinct bodies, have no prior output, and render cleanly. -/
def cexCtx : String → FileCtx := fun f =>
  if f = "d/a.yml" then
    ⟨true, Except.ok [1], Except.error "no output yet", Except.ok ⟨[⟨"CA"⟩], []⟩⟩
  else
    ⟨true, Except.ok [2], Except.error "no output yet", Except.ok ⟨[⟨"CB"⟩], []⟩⟩

/-- Concrete write outcome for the C3 scenario: writing the first file's
output fails with a permission error, any other write succeeds. -/
def cexWriteErr : String → String → Option String := fun p _ =>
  if p = "out/a.yml" then some "write out/a.yml: permission denied" else none

/-- C3 fails as stated: in a two-file directory batch whose first file
hits a write failure, `renderStencil` calls `printFatal`, which ends the
process — the batch trace stops at the fatal report, the sibling
`d/b.yml` is never rendered (exactly one render call occurs), and the
process does end. -/
theorem claim_C3_counterexample :
    runBatch cexFp cexCtx cexFormation "stk" "out" "snap" false false cexWriteErr
      ["d/a.yml", "d/b.yml"] =
      [EngineAction.warnChecksumRead "no output yet",
       EngineAction.infoRendering "fm" "d/a.yml" "out/a.yml",
       EngineAction.renderCall "stk" "snap" "fuid" "u1" [1],
       EngineAction.fatal "write out/a.yml: permission denied"] ∧
    (runBatch cexFp cexCtx cexFormation "stk" "out" "snap" false false cexWriteErr
      ["d/a.yml", "d/b.yml"]).countP EngineAction.isRenderCall = 1 := by
  decide

/-- C3 amended: a failure to write a file's rendered output is reported
through `printFatal` and ends the whole process — the file's content loop
stops at the fatal report, and a file whose render trace contains a fatal
report ends the batch, so the remaining sibling files are not processed. -/
theorem claim_C3_amended :
    (∀ (fp : List Nat → String) (body : List Nat) (output : String)
        (writeErr : String → String → Option String) (e : String)
        (v : RenderItem) (items : List RenderItem),
      output ≠ "" → writeErr output (stampedContent (fp body) v.content) = some e →
      writeRenderList fp body output writeErr (v :: items) = [EngineAction.fatal e]) ∧
    (∀ (fp : List Nat → String) (ctx : String → FileCtx) (formation : Formation)
        (stackUid outdir snapshotUID : String) (iw ie : Bool)
        (writeErr : String → String → Option String) (f : String) (rest : List String),
      (renderStencil fp (ctx f) f formation stackUid (getRenderFilepath outdir (baseName f))
          snapshotUID iw ie writeErr).any EngineAction.isFatal = true →
      runBatch fp ctx formation stackUid outdir snapshotUID iw ie writeErr (f :: rest) =
        renderStencil fp (ctx f) f formation stackUid (getRenderFilepath outdir (baseName f))
          snapshotUID iw ie writeErr) := by
  constructor
  · intro fp body output writeErr e v items ho hw
    simp [writeRenderList, ho, hw]
  · intro fp ctx formation stackUid outdir snapshotUID iw ie writeErr f rest hfatal
    simp [runBatch, hfatal]

/-- Witness for the amended C3 on the concrete two-file scenario. -/
theorem claim_C3_amended_witness :
    writeRenderList cexFp [1] "out/a.yml" cexWriteErr [⟨"CA"⟩] =
      [EngineAction.fatal "write out/a.yml: permission denied"] ∧
    runBatch cexFp cexCtx cexFormation "stk" "out" "snap" false false cexWriteErr
      ["d/a.yml", "d/b.yml"] =
      renderStencil cexFp (cexCtx "d/a.yml") "d/a.yml" cexFormation "stk"
        (getRenderFilepath "out" (baseName "d/a.yml")) "snap" false false cexWriteErr :=
  ⟨claim_C3_amended.1 cexFp [1] "out/a.yml" cexWriteErr
      "write out/a.yml: permission denied" ⟨"CA"⟩ [] (by decide) (by decide),
   claim_C3_amended.2 cexFp cexCtx cexFormation "stk" "out" "snap" false false cexWriteErr
      "d/a.yml" ["d/b.yml"] (by decide)⟩

/-- The first line of a string: its characters up to the first newline. -/
def firstLine (s : String) : String :=
  String.mk (s.data.takeWhile (fun c => c ≠ '\n'))

/-- `takeWhile (· ≠ newline)` of a newline-free list followed by a
newline returns exactly that list. -/
theorem takeWhile_until_newline (l r : List Char) (h : '\n' ∉ l) :
    (l ++ '\n' :: r).takeWhile (fun c => c ≠ '\n') = l := by
  induction l with
  | nil => simp
  | cons c cs ih =>
    have hc : c ≠ '\n' := fun hh => h (hh ▸ List.mem_cons_self c cs)
    have ih2 := ih (fun hm => h (List.mem_cons_of_mem _ hm))
    rw [List.cons_append, List.takeWhile_cons_of_pos (by simp [hc]), ih2]

/-- The first line of a stamped content is the fingerprint marker line,
provided the checksum itself contains no newline. -/
theorem firstLine_stamped (cs c : String) (h : '\n' ∉ cs.data) :
    firstLine (stampedContent cs c) = "# cx.checksum: " ++ cs := by
  have hdata : (stampedContent cs c).data =
      ("# cx.checksum: " ++ cs).data ++ '\n' :: c.data := by
    simp [stampedContent, String.data_append]
  have hnot : '\n' ∉ ("# cx.checksum: " ++ cs).data := by
    rw [String.data_append]
    intro hmem
    rcases List.mem_append.mp hmem with h1 | h1
    · simp at h1
    · exact h h1
  have := takeWhile_until_newline (("# cx.checksum: " ++ cs).data) c.data hnot
  show String.mk ((stampedContent cs c).data.takeWhile (fun c => c ≠ '\n')) = _
  rw [hdata, this]

/-- No action of the content loop is a Rendering Service call. -/
theorem writeRenderList_no_renderCall (fp : List Nat → String) (body : List Nat)
    (output : String) (writeErr : String → String → Option String)
    (items : List RenderItem) :
    ∀ a ∈ writeRenderList fp body output writeErr items, a.isRenderCall = false := by
  induction items with
  | nil => intro a ha; cases ha
  | cons v rest ih =>
    intro a ha
    simp only [writeRenderList] at ha
    split at ha
    · split at ha
      · simp at ha; subst ha; rfl
      · rcases List.mem_cons.mp ha with h1 | h1
        · subst h1; rfl
        · exact ih a h1
    · rcases List.mem_cons.mp ha with h1 | h1
      · subst h1; rfl
      · exact ih a h1

/-- No action of the warning phase is a Rendering Service call. -/
theorem warningsPhase_no_renderCall (fp : List Nat → String) (body : List Nat)
    (output : String) (iw : Bool) (writeErr : String → String → Option String)
    (renders : Renders) :
    ∀ a ∈ warningsPhase fp body output iw writeErr renders, a.isRenderCall = false := by
  intro a ha
  simp only [warningsPhase] at ha
  split at ha
  · split at ha
    · simp at ha; subst ha; rfl
    · rcases List.mem_cons.mp ha with h1 | h1
      · subst h1; rfl
      · exact writeRenderList_no_renderCall _ _ _ _ _ a h1
  · exact writeRenderList_no_renderCall _ _ _ _ _ a ha

/-- No action of the diagnostics triage is a Rendering Service call. -/
theorem processRenders_no_renderCall (fp : List Nat → String) (body : List Nat)
    (output : String) (iw ie : Bool) (writeErr : String → String → Option String)
    (renders : Renders) :
    ∀ a ∈ processRenders fp body output iw ie writeErr renders, a.isRenderCall = false := by
  intro a ha
  simp only [processRenders] at ha
  split at ha
  · split at ha
    · simp at ha; subst ha; rfl
    · rcases List.mem_cons.mp ha with h1 | h1
      · subst h1; rfl
      · exact warningsPhase_no_renderCall _ _ _ _ _ _ a h1
  · exact warningsPhase_no_renderCall _ _ _ _ _ _ a ha

/-- Any write in the content loop goes to `output` and carries exactly
one returned content stamped with the checksum of `body`. -/
theorem writeRenderList_write_mem (fp : List Nat → String) (body : List Nat)
    (output : String) (writeErr : String → String → Option String)
    (items : List RenderItem) (p s : String)
    (h : EngineAction.writeFile p s ∈ writeRenderList fp body output writeErr items) :
    p = output ∧ ∃ v ∈ items, s = stampedContent (fp body) v.content := by
  induction items with
  | nil => cases h
  | cons v rest ih =>
    simp only [writeRenderList] at h
    split at h
    · split at h
      · simp at h
      · rcases List.mem_cons.mp h with h1 | h1
        · have h2 := h1
          simp only [EngineAction.writeFile.injEq] at h2
          exact ⟨h2.1, v, List.mem_cons_self v rest, h2.2⟩
        · obtain ⟨hp, v', hv', hs⟩ := ih h1
          exact ⟨hp, v', List.mem_cons_of_mem _ hv', hs⟩
    · rcases List.mem_cons.mp h with h1 | h1
      · simp at h1
      · obtain ⟨hp, v', hv', hs⟩ := ih h1
        exact ⟨hp, v', List.mem_cons_of_mem _ hv', hs⟩

/-- Any write in the warning phase comes from the content loop. -/
theorem warningsPhase_write_mem (fp : List Nat → String) (body : List Nat)
    (output : String) (iw : Bool) (writeErr : String → String → Option String)
    (renders : Renders) (p s : String)
    (h : EngineAction.writeFile p s ∈ warningsPhase fp body output iw writeErr renders) :
    EngineAction.writeFile p s ∈ writeRenderList fp body output writeErr renders.stencils := by
  simp only [warningsPhase] at h
  split at h
  · split at h
    · simp at h
    · rcases List.mem_cons.mp h with h1 | h1
      · simp at h1
      · exact h1
  · exact h

/-- Any write in the diagnostics triage comes from the content loop. -/
theorem processRenders_write_mem (fp : List Nat → String) (body : List Nat)
    (output : String) (iw ie : Bool) (writeErr : String → String → Option String)
    (renders : Renders) (p s : String)
    (h : EngineAction.writeFile p s ∈ processRenders fp body output iw ie writeErr renders) :
    EngineAction.writeFile p s ∈ writeRenderList fp body output writeErr renders.stencils := by
  simp only [processRenders] at h
  split at h
  · split at h
    · simp at h
    · rcases List.mem_cons.mp h with h1 | h1
      · simp at h1
      · exact warningsPhase_write_mem _ _ _ _ _ _ _ _ h1
  · exact warningsPhase_write_mem _ _ _ _ _ _ _ _ h

/-- The body carried by a render call of the service phase is the body
the phase was invoked with. -/
theorem servicePhase_renderCall_body (fp : List Nat → String) (body : List Nat)
    (output : String) (iw ie : Bool) (writeErr : String → String → Option String)
    (stackUid snapshotUID formationUid stencilUID : String)
    (rr : Except String Renders) (su sn fu uu : String) (b : List Nat)
    (h : EngineAction.renderCall su sn fu uu b ∈
      servicePhase fp body output iw ie writeErr stackUid snapshotUID formationUid stencilUID rr) :
    b = body := by
  cases rr with
  | error e =>
    simp only [servicePhase] at h
    rcases List.mem_cons.mp h with h1 | h1
    · simp only [EngineAction.renderCall.injEq] at h1
      exact h1.2.2.2.2
    · simp at h1
  | ok renders =>
    simp only [servicePhase] at h
    rcases List.mem_cons.mp h with h1 | h1
    · simp only [EngineAction.renderCall.injEq] at h1
      exact h1.2.2.2.2
    · have h2 := processRenders_no_renderCall _ _ _ _ _ _ _ _ h1
      simp [EngineAction.isRenderCall] at h2

/-- Any write of the service phase comes from a successful service
response's content loop. -/
theorem servicePhase_write_mem (fp : List Nat → String) (body : List Nat)
    (output : String) (iw ie : Bool) (writeErr : String → String → Option String)
    (stackUid snapshotUID formationUid stencilUID : String)
    (rr : Except String Renders) (p s : String)
    (h : EngineAction.writeFile p s ∈
      servicePhase fp body output iw ie writeErr stackUid snapshotUID formationUid stencilUID rr) :
    ∃ renders, rr = Except.ok renders ∧
      EngineAction.writeFile p s ∈ writeRenderList fp body output writeErr renders.stencils := by
  cases rr with
  | error e => simp [servicePhase] at h
  | ok renders =>
    simp only [servicePhase] at h
    rcases List.mem_cons.mp h with h1 | h1
    · simp at h1
    · exact ⟨renders, rfl, processRenders_write_mem _ _ _ _ _ _ _ _ _ h1⟩

/-- A render call in a `renderStencil` trace always carries exactly the
bytes read from the source file. -/
theorem renderStencil_renderCall_body (fp : List Nat → String) (ctx : FileCtx)
    (f : String) (formation : Formation) (stackUid output snapshotUID : String)
    (iw ie : Bool) (writeErr : String → String → Option String)
    (su sn fu uu : String) (b : List Nat)
    (h : EngineAction.renderCall su sn fu uu b ∈
      renderStencil fp ctx f formation stackUid output snapshotUID iw ie writeErr) :
    ctx.readResult = Except.ok b := by
  simp only [renderStencil] at h
  split at h
  · simp at h
  · split at h
    · simp at h
    · split at h
      · simp at h
      · split at h
        · simp at h
        · next body heq =>
          split at h
          · simp at h
          · split at h
            · simp at h
            · rcases List.mem_append.mp h with h1 | h1
              · exfalso
                split at h1
                · rcases List.mem_append.mp h1 with h2 | h2
                  · split at h2
                    · simp at h2
                    · simp at h2
                  · simp at h2
                · simp at h1
              · have hb := servicePhase_renderCall_body _ _ _ _ _ _ _ _ _ _ _ _ _ _ _ _ h1
                rw [heq, hb]

/-- Any write in a `renderStencil` trace goes to `output` and is one of
the successful response's contents stamped with the checksum of the read
bytes. -/
theorem renderStencil_write_mem (fp : List Nat → String) (ctx : FileCtx)
    (f : String) (formation : Formation) (stackUid output snapshotUID : String)
    (iw ie : Bool) (writeErr : String → String → Option String) (p s : String)
    (h : EngineAction.writeFile p s ∈
      renderStencil fp ctx f formation stackUid output snapshotUID iw ie writeErr) :
    ∃ body renders, ctx.readResult = Except.ok body ∧
      ctx.renderResult = Except.ok renders ∧ p = output ∧
      ∃ v ∈ renders.stencils, s = stampedContent (fp body) v.content := by
  simp only [renderStencil] at h
  split at h
  · simp at h
  · split at h
    · simp at h
    · split at h
      · simp at h
      · split at h
        · simp at h
        · next body heq =>
          split at h
          · simp at h
          · split at h
            · simp at h
            · rcases List.mem_append.mp h with h1 | h1
              · exfalso
                split at h1
                · rcases List.mem_append.mp h1 with h2 | h2
                  · split at h2
                    · simp at h2
                    · simp at h2
                  · simp at h2
                · simp at h1
              · obtain ⟨renders, hr, h2⟩ := servicePhase_write_mem _ _ _ _ _ _ _ _ _ _ _ _ _ h1
                obtain ⟨hp, v, hv, hs⟩ := writeRenderList_write_mem _ _ _ _ _ _ _ h2
                exact ⟨body, renders, heq, hr, hp, v, hv, hs⟩

/-- C8: whenever a `renderStencil` trace both calls the Rendering Service
with some bytes and writes an output file, the written content is exactly
the fingerprint marker line for those same bytes followed by a newline
and one verbatim returned content, its first line being the marker — the
embedded fingerprint is never stale. -/
theorem claim_C8 (fp : List Nat → String) (ctx : FileCtx)
    (f : String) (formation : Formation) (stackUid output snapshotUID : String)
    (iw ie : Bool) (writeErr : String → String → Option String)
    (hnl : ∀ bs : List Nat, '\n' ∉ (fp bs).data)
    (su sn fu uu : String) (b : List Nat) (p s : String)
    (hc : EngineAction.renderCall su sn fu uu b ∈
      renderStencil fp ctx f formation stackUid output snapshotUID iw ie writeErr)
    (hw : EngineAction.writeFile p s ∈
      renderStencil fp ctx f formation stackUid output snapshotUID iw ie writeErr) :
    p = output ∧ ∃ renders, ctx.renderResult = Except.ok renders ∧
      ∃ v ∈ renders.stencils, s = stampedContent (fp b) v.content ∧
        firstLine s = "# cx.checksum: " ++ fp b := by
  have hb := renderStencil_renderCall_body fp ctx f formation stackUid output snapshotUID
    iw ie writeErr su sn fu uu b hc
  obtain ⟨body, renders, hb2, hr, hp, v, hv, hs⟩ :=
    renderStencil_write_mem fp ctx f formation stackUid output snapshotUID
      iw ie writeErr p s hw
  rw [hb] at hb2
  injection hb2 with hbb
  subst hbb
  refine ⟨hp, renders, hr, v, hv, hs, ?_⟩
  rw [hs]
  exact firstLine_stamped _ _ (hnl b)

/-- The constant digest used by concrete witnesses is newline-free. -/
theorem constH_no_newline : '\n' ∉ ("H" : String).data := by decide

/-- Witness for C8 at a concrete render-and-write trace. -/
theorem claim_C8_witness :
    "out/a.yml" = "out/a.yml" ∧
    ∃ renders,
      (⟨true, Except.ok [1], Except.error "e",
        Except.ok ⟨[⟨"C"⟩], []⟩⟩ : FileCtx).renderResult = Except.ok renders ∧
      ∃ v ∈ renders.stencils, "# cx.checksum: H\nC" = stampedContent "H" v.content ∧
        firstLine "# cx.checksum: H\nC" = "# cx.checksum: " ++ "H" :=
  claim_C8 (fun _ => "H") ⟨true, Except.ok [1], Except.error "e", Except.ok ⟨[⟨"C"⟩], []⟩⟩
    "d/a.yml" ⟨"fm", "fu", [⟨"a.yml", "u1"⟩]⟩ "stk" "out/a.yml" "snap" false false
    (fun _ _ => none) (fun _ => constH_no_newline) "stk" "snap" "fu" "u1" [1]
    "out/a.yml" "# cx.checksum: H\nC" (by decide) (by decide)

/-- The fold step of `lastWrite`: a write to the tracked path replaces the
accumulator, anything else keeps it. -/
def lastWriteUpd (p : String) (acc : Option String) : EngineAction → Option String
  | EngineAction.writeFile q s => if q = p then some s else acc
  | _ => acc

/-- The content of the last successful write to `p` in a trace — what the
file at `p` holds after the trace ran. -/
def lastWrite (tr : List EngineAction) (p : String) : Option String :=
  tr.foldl (lastWriteUpd p) none

/-- Folding `lastWrite` over writes of `g v` to one path yields the image
of the last item (or the accumulator when there is none). -/
theorem lastWrite_fold_map (g : RenderItem → String) (output : String)
    (items : List RenderItem) (acc : Option String) :
    (items.map (fun v => EngineAction.writeFile output (g v))).foldl
      (lastWriteUpd output) acc =
    (match items.getLast? with
     | none => acc
     | some v => some (g v)) := by
  induction items generalizing acc with
  | nil => rfl
  | cons v rest ih =>
    have hupd : lastWriteUpd output acc (EngineAction.writeFile output (g v)) = some (g v) := by
      simp [lastWriteUpd]
    simp only [List.map_cons, List.foldl_cons, hupd]
    rw [ih]
    cases rest with
    | nil => simp
    | cons w ws =>
      rw [List.getLast?_cons_cons]
      cases h : (w :: ws).getLast? with
      | none =>
        rw [List.getLast?_eq_none_iff] at h
        cases h
      | some u => rfl

/-- With every write succeeding, the content loop writes each returned
content, stamped, to the output path in order. -/
theorem writeRenderList_all_ok (fp : List Nat → String) (body : List Nat)
    (output : String) (writeErr : String → String → Option String)
    (items : List RenderItem)
    (ho : output ≠ "") (hsucc : ∀ s, writeErr output s = none) :
    writeRenderList fp body output writeErr items =
      items.map (fun v => EngineAction.writeFile output
        (stampedContent (fp body) v.content)) := by
  induction items with
  | nil => rfl
  | cons v rest ih =>
    simp only [writeRenderList, hsucc, List.map_cons]
    rw [ih, if_pos ho]

/-- C10: when the Rendering Service returns more than one content for a
single render call and an output path is set (and writes succeed), every
content is written to the same destination path in sequence, and the file
afterwards holds exactly the last returned content with its marker line. -/
theorem claim_C10 (fp : List Nat → String) (body : List Nat) (output : String)
    (writeErr : String → String → Option String) (items : List RenderItem)
    (ho : output ≠ "") (hsucc : ∀ s, writeErr output s = none)
    (_hlen : 1 < items.length) :
    writeRenderList fp body output writeErr items =
      items.map (fun v => EngineAction.writeFile output
        (stampedContent (fp body) v.content)) ∧
    lastWrite (writeRenderList fp body output writeErr items) output =
      items.getLast?.map (fun v => stampedContent (fp body) v.content) := by
  have h1 := writeRenderList_all_ok fp body output writeErr items ho hsucc
  refine ⟨h1, ?_⟩
  rw [h1]
  show (items.map _).foldl (lastWriteUpd output) none = _
  rw [lastWrite_fold_map]
  cases items.getLast? <;> rfl

/-- Witness for C10 at a concrete two-content response. -/
theorem claim_C10_witness :
    writeRenderList (fun _ => "H") [1] "out/a.yml" (fun _ _ => none) [⟨"C1"⟩, ⟨"C2"⟩] =
      [EngineAction.writeFile "out/a.yml" (stampedContent "H" "C1"),
       EngineAction.writeFile "out/a.yml" (stampedContent "H" "C2")] ∧
    lastWrite (writeRenderList (fun _ => "H") [1] "out/a.yml" (fun _ _ => none)
        [⟨"C1"⟩, ⟨"C2"⟩]) "out/a.yml" =
      some (stampedContent "H" "C2") :=
  claim_C10 (fun _ => "H") [1] "out/a.yml" (fun _ _ => none) [⟨"C1"⟩, ⟨"C2"⟩]
    (by decide) (fun s => rfl) (by decide)
